import Mathlib

/-!
# Verification of the phaser-unpacker texture-atlas extraction pipeline

Shallow embedding of `src/main.go` (package `main` of
`evaneliasyoung/phaser-unpacker`). The geometry types (`Size`, `Frame`,
`Texture`, `Sheet`, `Pack`, `Unpacker`) mirror the Go structs; the Go
standard-library pieces the extraction uses (`image.Rectangle`,
`image.Point.In`, `Rectangle.Intersect`, `Rectangle.Add`, `image.NewRGBA`,
`image.RGBA.At`, `draw.Draw` with `draw.Src`) are embedded with their
documented clipping semantics. Filesystem effects (open, decode, MkdirAll,
Create, png Encode, Close) are modelled by an environment of success flags,
so `unpackTexture` / `unpackSheet` become pure functions of that
environment. The single-worker execution of `unpackSheet`'s pool is
modelled deterministically; multi-worker write interleavings are modelled
by merge relations on the job list.
-/

set_option autoImplicit false

namespace PhaserUnpacker

/-- Embedding of Go `image.Point`. -/
structure Point where
  x : Int
  y : Int
deriving DecidableEq

/-- Embedding of Go `image.Rectangle` (min inclusive, max exclusive). -/
structure Rectangle where
  min : Point
  max : Point
deriving DecidableEq

/-- Go `image.Point.In`: `r.Min.X <= p.X < r.Max.X && r.Min.Y <= p.Y < r.Max.Y`. -/
def Point.In (p : Point) (r : Rectangle) : Bool :=
  decide (r.min.x ≤ p.x ∧ p.x < r.max.x ∧ r.min.y ≤ p.y ∧ p.y < r.max.y)

/-- Go `image.Rectangle.Empty`. -/
def Rectangle.Empty (r : Rectangle) : Bool :=
  decide (r.max.x ≤ r.min.x ∨ r.max.y ≤ r.min.y)

/-- Go `image.ZR`, the zero rectangle. -/
def Rectangle.ZR : Rectangle := ⟨⟨0, 0⟩, ⟨0, 0⟩⟩

/-- Go `image.Rectangle.Intersect`: componentwise max/min, normalised to `ZR`
when the result is empty. -/
def Rectangle.Intersect (r s : Rectangle) : Rectangle :=
  if (Rectangle.mk ⟨Max.max r.min.x s.min.x, Max.max r.min.y s.min.y⟩
       ⟨Min.min r.max.x s.max.x, Min.min r.max.y s.max.y⟩).Empty then
    Rectangle.ZR
  else
    ⟨⟨Max.max r.min.x s.min.x, Max.max r.min.y s.min.y⟩,
     ⟨Min.min r.max.x s.max.x, Min.min r.max.y s.max.y⟩⟩

/-- Go `image.Rectangle.Add`: translate a rectangle by a point. -/
def Rectangle.Add (r : Rectangle) (p : Point) : Rectangle :=
  ⟨⟨r.min.x + p.x, r.min.y + p.y⟩, ⟨r.max.x + p.x, r.max.y + p.y⟩⟩

/-- An RGBA color value (Go `color.RGBA`). -/
structure Color where
  r : Nat
  g : Nat
  b : Nat
  a : Nat
deriving DecidableEq

/-- The zero value of `color.RGBA`: fully transparent black. -/
def Color.zero : Color := ⟨0, 0, 0, 0⟩

/-- A decoded raster image: a bounds rectangle and a pixel function.
Models both Go `image.Image` sources and `image.RGBA` destinations; the
pixel function is meaningful inside `rect`. -/
structure Image where
  rect : Rectangle
  pix : Int → Int → Color

/-- Go `image.RGBA.At`: the pixel inside the bounds, the zero color outside. -/
def Image.At (img : Image) (x y : Int) : Color :=
  if (Point.mk x y).In img.rect then img.pix x y else Color.zero

/-- Go `image.NewRGBA r`: every pixel starts as the zero (fully transparent)
color. -/
def newRGBA (r : Rectangle) : Image :=
  ⟨r, fun _ _ => Color.zero⟩

/-- Go `draw.Draw dst r src sp draw.Src` for an RGBA destination: the
destination rectangle `r` is clipped against `dst.Bounds()` and against
`src.Bounds().Add(r.Min.Sub(sp))`; inside the clipped rectangle the
destination pixel at `p` becomes the source pixel at `p.Sub(r.Min).Add(sp)`,
outside it is untouched. -/
def drawDraw (dst : Image) (r : Rectangle) (src : Image) (sp : Point) : Image :=
  let clipped := (r.Intersect dst.rect).Intersect
    (src.rect.Add ⟨r.min.x - sp.x, r.min.y - sp.y⟩)
  { rect := dst.rect
    pix := fun x y =>
      if (Point.mk x y).In clipped then
        src.At (x - r.min.x + sp.x) (y - r.min.y + sp.y)
      else
        dst.pix x y }

/-- Go struct `Size` from `src/main.go`. -/
structure Size where
  width : Int
  height : Int
deriving DecidableEq

/-- Method `Size.Min` from the source: always the origin. -/
def Size.Min (_sz : Size) : Point := ⟨0, 0⟩

/-- Method `Size.Max` from the source. -/
def Size.Max (sz : Size) : Point := ⟨sz.width, sz.height⟩

/-- Method `Size.Rect` from the source. -/
def Size.Rect (sz : Size) : Rectangle := ⟨sz.Min, sz.Max⟩

/-- Go struct `Frame` from `src/main.go`. -/
structure Frame where
  width : Int
  height : Int
  x : Int
  y : Int
deriving DecidableEq

/-- Method `Frame.Min` from the source. -/
def Frame.Min (fr : Frame) : Point := ⟨fr.x, fr.y⟩

/-- Method `Frame.Max` from the source. -/
def Frame.Max (fr : Frame) : Point := ⟨fr.x + fr.width, fr.y + fr.height⟩

/-- Method `Frame.Rect` from the source. -/
def Frame.Rect (fr : Frame) : Rectangle := ⟨fr.Min, fr.Max⟩

/-- Go struct `Texture` from `src/main.go`. -/
structure Texture where
  fileName : String
  frame : Frame
  rotated : Bool
  sourceSize : Size
  spriteSourceSize : Frame
  trimmed : Bool
deriving DecidableEq

/-- Go struct `Sheet` from `src/main.go` (the unused float64 `Scale` field is
not interpreted by any code path and is omitted from the embedding). -/
structure Sheet where
  format : String
  textures : List Texture
  image : String
  size : Size

/-- Go struct `Pack` from `src/main.go`. -/
structure Pack where
  meta : List (String × String)
  sheets : List Sheet

/-- Go struct `Unpacker` from `src/main.go`. -/
structure Unpacker where
  pack : Pack
  packName : String
  inputDir : String
  outputDir : String
  workers : Nat

/-- The pure image construction of `unpackTexture` (src/main.go lines 93-99):
allocate an RGBA canvas sized by `sourceSize`, then
`draw.Draw(sprite, spriteSourceSize.Rect(), img, frame.Rect().Min, draw.Src)`. -/
def extractSprite (texture : Texture) (img : Image) : Image :=
  let spriteSize := texture.sourceSize.Rect
  let sprite := newRGBA spriteSize
  let destFrame := texture.spriteSourceSize.Rect
  let sourceFrame := texture.frame.Rect
  drawDraw sprite destFrame img sourceFrame.min

/-- Environment of filesystem outcomes for one run: whether each operation
performed by the pipeline succeeds, and the decoded image each sheet file
yields. Keys are the sheet image name (open/decode) or the texture file
name (per-texture output operations). -/
structure FS where
  rootMkdirOk : Bool
  openOk : String → Bool
  decodeOk : String → Bool
  imageOf : String → Image
  mkdirOk : String → Bool
  createOk : String → Bool
  encodeOk : String → Bool
  closeOk : String → Bool

/-- An environment in which every filesystem operation succeeds. -/
def allOkFS (imgs : String → Image) : FS :=
  ⟨true, fun _ => true, fun _ => true, imgs,
   fun _ => true, fun _ => true, fun _ => true, fun _ => true⟩

/-- Function `unpackTexture` (src/main.go lines 92-128): build the sprite, then perform
the filesystem steps in source order — `MkdirAll` only when the file name
contains a path separator, then `os.Create`, `png` `Encode`, `Close`. The
returned value on success is the sprite image that was encoded into
`<outputDir>/<fileName>.png`. Go's `strings.Contains(name, "/")` is embedded
as membership of the separator character in the name's character list. -/
def unpackTexture (_unpacker : Unpacker) (fs : FS) (texture : Texture)
    (img : Image) : Except String Image :=
  let sprite := extractSprite texture img
  if texture.fileName.data.contains '/' && !(fs.mkdirOk texture.fileName) then
    .error "failed to create output directory"
  else if !(fs.createOk texture.fileName) then
    .error "failed to open output file"
  else if !(fs.encodeOk texture.fileName) then
    .error "failed to encode sprite as png"
  else if !(fs.closeOk texture.fileName) then
    .error "failed to write output file"
  else
    .ok sprite

/-- The job loop of one worker goroutine of `unpackSheet` (src/main.go lines
149-163), run with a single worker: jobs arrive in manifest order; each
result is sent to the buffered `results` channel; on an error the worker
`return`s, so no later job is taken. Returns the list of attempted textures
paired with their results, in order. -/
def runWorker1 (unpacker : Unpacker) (fs : FS) (img : Image) :
    List Texture → List (Texture × Except String Image)
  | [] => []
  | t :: rest =>
    match unpackTexture unpacker fs t img with
    | .error e => [(t, .error e)]
    | .ok s => (t, .ok s) :: runWorker1 unpacker fs img rest

/-- The drain loop of `unpackSheet` (src/main.go lines 176-180): the first error in
channel order, or nil. -/
def firstError : List (Texture × Except String Image) → Except String Unit
  | [] => .ok ()
  | (_, .error e) :: _ => .error e
  | (_, .ok _) :: rest => firstError rest

/-- Observable outcome of one sheet pipeline: its returned error value, the
textures whose extraction was attempted, and the output files fully written
(name and pixel content). -/
structure SheetRun where
  result : Except String Unit
  attempted : List Texture
  written : List (String × Image)

/-- Function `unpackSheet` (src/main.go lines 130-183) executed with one worker:
open the sheet file, decode it once, then run the worker loop over the
textures and return the first error from the results channel. Open or
decode failure returns immediately, before any texture job is created. -/
def unpackSheet1 (unpacker : Unpacker) (fs : FS) (sheet : Sheet) : SheetRun :=
  if !(fs.openOk sheet.image) then
    ⟨.error "failed to open texture sheet", [], []⟩
  else if !(fs.decodeOk sheet.image) then
    ⟨.error "failed to decode webp file", [], []⟩
  else
    let img := fs.imageOf sheet.image
    let pairs := runWorker1 unpacker fs img sheet.textures
    ⟨firstError pairs, pairs.map Prod.fst,
     pairs.filterMap fun p =>
       match p.2 with
       | .ok s => some (p.1.fileName, s)
       | .error _ => none⟩

/-- Function `unpack` (src/main.go lines 185-267): create the output root, run every
sheet pipeline, and keep the first error captured under the mutex. The
order in which the sheet goroutines reach the mutex is a parameter
`order` (a permutation of the sheet indices); the captured error is the
error of the first sheet in that order whose pipeline failed. -/
def unpackModel (unpacker : Unpacker) (fs : FS) (order : List Nat) :
    Except String Unit :=
  if !fs.rootMkdirOk then
    .error "failed to create output directory"
  else
    match order.filterMap (fun i =>
      match (unpacker.pack.sheets.map fun sh => (unpackSheet1 unpacker fs sh).result).get? i with
      | some (.error e) => some e
      | _ => none) with
    | [] => .ok ()
    | e :: _ => .error e

/-- All files written by a full run: every sheet pipeline runs to completion
(`wg.Wait` in `unpack`), so the union over all sheets is written regardless
of which sheets or textures failed. -/
def unpackWritten (unpacker : Unpacker) (fs : FS) : List (String × Image) :=
  unpacker.pack.sheets.flatMap fun sh => (unpackSheet1 unpacker fs sh).written

/-- The sequence of output-file writes produced by extracting the textures of
`ord` (in that completion order) against a decoded source image. -/
def writesOf (ord : List Texture) (img : Image) : List (String × Image) :=
  ord.map fun t => (t.fileName, extractSprite t img)

/-- Final on-disk content of an output file after a sequence of writes:
each write truncates and rewrites the file, so the last write wins. -/
def finalFiles (writes : List (String × Image)) (name : String) : Option Image :=
  ((writes.filter fun w => w.1 = name).getLast?).map Prod.snd

/-- Relation stating that `zs` is an order-preserving interleaving of `xs` and
`ys`. With two workers, the job list is split between the workers as two
subsequences (`Merge2 q0 q1 jobs`) and their writes land in any
interleaving of the two queues (`Merge2 q0 q1 writeOrder`). -/
inductive Merge2 {α : Type} : List α → List α → List α → Prop
  | nil : Merge2 [] [] []
  | left {a : α} {xs ys zs : List α} : Merge2 xs ys zs → Merge2 (a :: xs) ys (a :: zs)
  | right {a : α} {xs ys zs : List α} : Merge2 xs ys zs → Merge2 xs (a :: ys) (a :: zs)

/-- Modelled from the spec: the extraction C3 describes for `rotated = true`
textures, with the packed region stored rotated 90 degrees clockwise —
`frame`'s width/height interpretation is swapped (the packed region spans
`frame.height` horizontally and `frame.width` vertically) and the pixels are
rotated back before placement at `spriteSourceSize`. No such code exists in
`src/main.go`; this is the comparison point for the claim. -/
def rotatedExtractCW (t : Texture) (img : Image) : Image :=
  { rect := t.sourceSize.Rect
    pix := fun x y =>
      if (Point.mk x y).In t.spriteSourceSize.Rect &&
         (Point.mk x y).In t.sourceSize.Rect then
        img.At (t.frame.x + (t.frame.height - 1 - (y - t.spriteSourceSize.y)))
               (t.frame.y + (x - t.spriteSourceSize.x))
      else Color.zero }

/-- Modelled from the spec: as `rotatedExtractCW` but with the packed region
stored rotated 90 degrees counter-clockwise. -/
def rotatedExtractCCW (t : Texture) (img : Image) : Image :=
  { rect := t.sourceSize.Rect
    pix := fun x y =>
      if (Point.mk x y).In t.spriteSourceSize.Rect &&
         (Point.mk x y).In t.sourceSize.Rect then
        img.At (t.frame.x + (y - t.spriteSourceSize.y))
               (t.frame.y + (t.frame.width - 1 - (x - t.spriteSourceSize.x)))
      else Color.zero }

/-- Unfolding of `Point.In` to arithmetic. -/
theorem Point.in_iff (p : Point) (r : Rectangle) :
    p.In r = true ↔
      (r.min.x ≤ p.x ∧ p.x < r.max.x ∧ r.min.y ≤ p.y ∧ p.y < r.max.y) := by
  simp [Point.In]

/-- Membership in an intersection is conjunction of memberships; the `ZR`
normalisation of empty results does not change membership. -/
theorem Point.in_intersect (p : Point) (r s : Rectangle) :
    p.In (r.Intersect s) = (p.In r && p.In s) := by
  rw [Bool.eq_iff_iff]
  unfold Rectangle.Intersect
  split
  · next h =>
      simp only [Rectangle.Empty, decide_eq_true_eq] at h
      simp only [Bool.and_eq_true, Point.in_iff, Rectangle.ZR]
      omega
  · next h =>
      simp only [Rectangle.Empty, decide_eq_true_eq] at h
      simp only [Bool.and_eq_true, Point.in_iff]
      omega

/-- Membership in a translated rectangle. -/
theorem Point.in_add (p : Point) (r : Rectangle) (q : Point) :
    p.In (r.Add q) = (Point.mk (p.x - q.x) (p.y - q.y)).In r := by
  rw [Bool.eq_iff_iff]
  simp only [Point.in_iff, Rectangle.Add]
  omega

/-- Pixel-level semantics of the extraction step: the output pixel at `(x, y)`
is the source pixel at `(x, y)` translated from `spriteSourceSize`'s corner to
`frame`'s corner when `(x, y)` lies in `spriteSourceSize`'s rectangle, in the
`sourceSize` canvas, and the translated point lies in the source bounds;
every other pixel keeps the transparent zero value of the fresh canvas. -/
theorem extractSprite_pix (t : Texture) (img : Image) (x y : Int) :
    (extractSprite t img).pix x y =
      if (Point.mk x y).In t.spriteSourceSize.Rect = true ∧
         (Point.mk x y).In t.sourceSize.Rect = true ∧
         (Point.mk (x - t.spriteSourceSize.x + t.frame.x)
            (y - t.spriteSourceSize.y + t.frame.y)).In img.rect = true then
        img.pix (x - t.spriteSourceSize.x + t.frame.x)
          (y - t.spriteSourceSize.y + t.frame.y)
      else Color.zero := by
  show (if (Point.mk x y).In
            ((t.spriteSourceSize.Rect.Intersect t.sourceSize.Rect).Intersect
              (img.rect.Add ⟨t.spriteSourceSize.Rect.min.x - t.frame.Rect.min.x,
                t.spriteSourceSize.Rect.min.y - t.frame.Rect.min.y⟩)) then
          img.At (x - t.spriteSourceSize.Rect.min.x + t.frame.Rect.min.x)
            (y - t.spriteSourceSize.Rect.min.y + t.frame.Rect.min.y)
        else Color.zero) = _
  simp only [Point.in_intersect, Point.in_add, Frame.Rect, Frame.Min, Size.Rect, Size.Min,
    Bool.and_eq_true, Image.At]
  by_cases h1 : (Point.mk x y).In t.spriteSourceSize.Rect = true
  case neg =>
    simp only [Frame.Rect, Frame.Min] at h1
    simp [h1]
  case pos =>
  by_cases h2 : (Point.mk x y).In t.sourceSize.Rect = true
  case neg =>
    simp only [Size.Rect, Size.Min] at h2
    simp [h1, h2]
  case pos =>
  by_cases h3 : (Point.mk (x - t.spriteSourceSize.x + t.frame.x)
      (y - t.spriteSourceSize.y + t.frame.y)).In img.rect = true
  · have h3' : (Point.mk (x - (t.spriteSourceSize.x - t.frame.x))
        (y - (t.spriteSourceSize.y - t.frame.y))).In img.rect = true := by
      simp only [Point.in_iff] at h3 ⊢; omega
    simp only [Frame.Rect, Frame.Min, Size.Rect, Size.Min] at h1 h2
    simp only [h1, h2, h3, h3', and_self, if_true, true_and]
  · have h3' : ¬ (Point.mk (x - (t.spriteSourceSize.x - t.frame.x))
        (y - (t.spriteSourceSize.y - t.frame.y))).In img.rect = true := by
      simp only [Point.in_iff] at h3 ⊢; omega
    simp only [Frame.Rect, Frame.Min, Size.Rect, Size.Min] at h1 h2
    simp [h1, h2, h3, h3']

/-- The extraction canvas always has the `sourceSize` bounds. -/
theorem extractSprite_rect (t : Texture) (img : Image) :
    (extractSprite t img).rect = t.sourceSize.Rect := rfl

/-- A concrete 2x2 source image with four pairwise distinct pixels. -/
def img2x2 : Image :=
  ⟨⟨⟨0, 0⟩, ⟨2, 2⟩⟩, fun x y =>
    if x = 0 ∧ y = 0 then ⟨255, 0, 0, 255⟩
    else if x = 1 ∧ y = 0 then ⟨0, 255, 0, 255⟩
    else if x = 0 ∧ y = 1 then ⟨0, 0, 255, 255⟩
    else ⟨255, 255, 255, 255⟩⟩

/-- A concrete `Unpacker` session used by the closed instances. -/
def unp0 : Unpacker := ⟨⟨[], []⟩, "pack", "in", "out", 1⟩

/-- A concrete all-success filesystem environment whose every sheet file
decodes to `img2x2`. -/
def fs0 : FS := allOkFS fun _ => img2x2

/-- C1 counterexample fixture: an untrimmed texture whose `spriteSourceSize`
is a 1x1 rectangle at (1,1) rather than the full canvas. -/
def texC1 : Texture :=
  { fileName := "c1", frame := ⟨2, 2, 0, 0⟩, rotated := false,
    sourceSize := ⟨2, 2⟩, spriteSourceSize := ⟨1, 1, 1, 1⟩, trimmed := false }

/-- C1: as stated the claim fails. `texC1` has `trimmed = false`, and the raw
crop of `frame` has the red pixel of `img2x2` at (0,0), but the code copies
only into the `spriteSourceSize` rectangle, so the extracted image is
transparent at (0,0). -/
theorem c1_counterexample :
    texC1.trimmed = false ∧
    (extractSprite texC1 img2x2).At 0 0 = Color.zero ∧
    img2x2.At (texC1.frame.x + 0) (texC1.frame.y + 0) = ⟨255, 0, 0, 255⟩ ∧
    Color.zero ≠ (⟨255, 0, 0, 255⟩ : Color) := by
  exact ⟨rfl, by decide, by decide, by decide⟩

/-- C1 amended: for a texture with `trimmed = false` whose `spriteSourceSize`
is the whole `sourceSize` canvas and whose `frame` extent equals
`sourceSize` (the shape untrimmed manifest entries have), the extracted
image has the `sourceSize` bounds and every pixel of it equals the raw crop
of `frame` from the source image. -/
theorem c1_untrimmed_is_raw_crop (t : Texture) (img : Image)
    ( _ht : t.trimmed = false)
    (hss : t.spriteSourceSize = ⟨t.sourceSize.width, t.sourceSize.height, 0, 0⟩)
    (hfw : t.frame.width = t.sourceSize.width)
    (hfh : t.frame.height = t.sourceSize.height)
    (i j : Int) (hi0 : 0 ≤ i) (hiw : i < t.frame.width)
    (hj0 : 0 ≤ j) (hjh : j < t.frame.height) :
    (extractSprite t img).rect = t.sourceSize.Rect ∧
    (extractSprite t img).At i j = img.At (t.frame.x + i) (t.frame.y + j) := by
  refine ⟨rfl, ?_⟩
  have hin : (Point.mk i j).In t.sourceSize.Rect = true := by
    simp only [Point.in_iff, Size.Rect, Size.Min, Size.Max]
    omega
  have hsub : (Point.mk i j).In t.spriteSourceSize.Rect = true := by
    simp only [Point.in_iff, Frame.Rect, Frame.Min, Frame.Max, hss]
    omega
  have hx : i - t.spriteSourceSize.x + t.frame.x = t.frame.x + i := by
    simp only [hss]; omega
  have hy : j - t.spriteSourceSize.y + t.frame.y = t.frame.y + j := by
    simp only [hss]; omega
  simp only [Image.At, extractSprite_rect, hin, if_true]
  rw [extractSprite_pix, hx, hy]
  by_cases hsrc : (Point.mk (t.frame.x + i) (t.frame.y + j)).In img.rect = true
  · rw [if_pos ⟨hsub, hin, hsrc⟩, if_pos hsrc]
  · rw [if_neg (by simp [hsrc]), if_neg hsrc]

/-- C1 witness fixture: a well-formed untrimmed texture — full-canvas
`spriteSourceSize`, `frame` extent equal to `sourceSize`. -/
def texC1w : Texture :=
  { fileName := "hero", frame := ⟨2, 2, 0, 0⟩, rotated := false,
    sourceSize := ⟨2, 2⟩, spriteSourceSize := ⟨2, 2, 0, 0⟩, trimmed := false }

/-- C1 amended witness: the end-to-end example of the spec in miniature — an
untrimmed full-canvas texture reproduces the source pixel. -/
theorem c1_untrimmed_witness :
    (extractSprite texC1w img2x2).rect = texC1w.sourceSize.Rect ∧
    (extractSprite texC1w img2x2).At 0 0 =
      img2x2.At (texC1w.frame.x + 0) (texC1w.frame.y + 0) :=
  c1_untrimmed_is_raw_crop texC1w img2x2 rfl rfl rfl rfl 0 0
    (by decide) (by decide) (by decide) (by decide)

/-- C2 witness fixture: a trimmed texture whose packed data occupies only the
top-left 1x1 region of a 2x2 logical canvas. -/
def texC2 : Texture :=
  { fileName := "c2", frame := ⟨1, 1, 1, 0⟩, rotated := false,
    sourceSize := ⟨2, 2⟩, spriteSourceSize := ⟨1, 1, 0, 0⟩, trimmed := true }

/-- C2: for a trimmed texture, within the `sourceSize` canvas every pixel
outside the `spriteSourceSize` rectangle is the transparent zero color, and
every pixel inside it equals the corresponding pixel (under Go's `At`
semantics) of the `frame` crop of the source image. -/
theorem c2_trimmed_composition (t : Texture) (img : Image) (x y : Int)
    ( _ht : t.trimmed = true)
    (hin : (Point.mk x y).In t.sourceSize.Rect = true) :
    ((Point.mk x y).In t.spriteSourceSize.Rect = false →
      (extractSprite t img).At x y = Color.zero) ∧
    ((Point.mk x y).In t.spriteSourceSize.Rect = true →
      (extractSprite t img).At x y =
        img.At (x - t.spriteSourceSize.x + t.frame.x)
          (y - t.spriteSourceSize.y + t.frame.y)) := by
  constructor
  · intro hout
    simp only [Image.At, extractSprite_rect, hin, if_true]
    rw [extractSprite_pix, if_neg]
    simp [hout]
  · intro hins
    simp only [Image.At, extractSprite_rect, hin, if_true]
    rw [extractSprite_pix]
    by_cases hsrc : (Point.mk (x - t.spriteSourceSize.x + t.frame.x)
        (y - t.spriteSourceSize.y + t.frame.y)).In img.rect = true
    · rw [if_pos ⟨hins, hin, hsrc⟩, if_pos hsrc]
    · rw [if_neg (by simp [hsrc]), if_neg hsrc]

/-- C2 witness: on `texC2` the pixel (1,1) (outside `spriteSourceSize`) is
transparent and the pixel (0,0) (inside) is the green source pixel pulled
from `frame`'s corner (1,0). -/
theorem c2_trimmed_witness :
    (extractSprite texC2 img2x2).At 1 1 = Color.zero ∧
    (extractSprite texC2 img2x2).At 0 0 =
      img2x2.At (0 - texC2.spriteSourceSize.x + texC2.frame.x)
        (0 - texC2.spriteSourceSize.y + texC2.frame.y) :=
  ⟨(c2_trimmed_composition texC2 img2x2 1 1 rfl (by decide)).1 (by decide),
   (c2_trimmed_composition texC2 img2x2 0 0 rfl (by decide)).2 (by decide)⟩

/-- C3 counterexample fixture: a rotated texture packing a 1x2 sprite. -/
def texC3 : Texture :=
  { fileName := "rot", frame := ⟨1, 2, 0, 0⟩, rotated := true,
    sourceSize := ⟨1, 2⟩, spriteSourceSize := ⟨1, 2, 0, 0⟩, trimmed := false }

/-- C3: as stated the claim fails. For the rotated texture `texC3` the code's
output pixel (0,1) is the blue source pixel at (0,1) — the copy is a plain
unrotated crop — while an extraction that swapped `frame`'s width/height and
rotated the region 90 degrees (in either direction) would place a different
pixel there. -/
theorem c3_counterexample :
    texC3.rotated = true ∧
    (extractSprite texC3 img2x2).At 0 1 ≠ (rotatedExtractCW texC3 img2x2).At 0 1 ∧
    (extractSprite texC3 img2x2).At 0 1 ≠ (rotatedExtractCCW texC3 img2x2).At 0 1 := by
  exact ⟨rfl, by decide, by decide⟩

/-- C3 amended: the extraction copy does not account for rotation at all —
the `rotated` flag is never read, so a texture with `rotated = true`
produces exactly the output of the same texture with any other value of the
flag (no width/height swap, no 90-degree rotation of pixels). -/
theorem c3_rotated_ignored (t : Texture) (img : Image) (b : Bool) :
    extractSprite { t with rotated := b } img = extractSprite t img := rfl

/-- C9: for every texture and source image — whatever `frame`,
`spriteSourceSize`, `rotated`, `trimmed`, and however the regions relate to
the image bounds — the constructed sprite has exactly the
`sourceSize`-bounds canvas, and when the filesystem operations succeed
`unpackTexture` returns it without error (out-of-range regions are clipped
by `draw.Draw`, never reported). -/
theorem c9_dims_always_sourceSize (u : Unpacker) (fs : FS) (t : Texture) (img : Image)
    (hm : fs.mkdirOk t.fileName = true) (hc : fs.createOk t.fileName = true)
    (he : fs.encodeOk t.fileName = true) (hcl : fs.closeOk t.fileName = true) :
    (extractSprite t img).rect = t.sourceSize.Rect ∧
    unpackTexture u fs t img = .ok (extractSprite t img) := by
  refine ⟨rfl, ?_⟩
  unfold unpackTexture
  simp [hm, hc, he, hcl]

/-- C9 witness: instantiated at `texC1`, whose `frame` is the full 2x2 source. -/
theorem c9_witness :
    (extractSprite texC1 img2x2).rect = texC1.sourceSize.Rect ∧
    unpackTexture unp0 fs0 texC1 img2x2 = .ok (extractSprite texC1 img2x2) :=
  c9_dims_always_sourceSize unp0 fs0 texC1 img2x2 rfl rfl rfl rfl

/-- C10: the trimmed flag has no influence on extraction — two textures equal
in every field but `trimmed` yield the same `unpackTexture` outcome (same
output image, same error behaviour) against any environment and source. -/
theorem c10_trimmed_no_influence (u : Unpacker) (fs : FS) (img : Image)
    (t t' : Texture)
    (hn : t.fileName = t'.fileName) (hf : t.frame = t'.frame)
    (hr : t.rotated = t'.rotated) (hs : t.sourceSize = t'.sourceSize)
    (hss : t.spriteSourceSize = t'.spriteSourceSize) :
    unpackTexture u fs t img = unpackTexture u fs t' img ∧
    extractSprite t img = extractSprite t' img := by
  cases t
  cases t'
  cases hn
  cases hf
  cases hr
  cases hs
  cases hss
  exact ⟨rfl, rfl⟩

/-- C10 witness: `texC2` against its `trimmed := false` variant. -/
theorem c10_witness :
    unpackTexture unp0 fs0 texC2 img2x2 =
      unpackTexture unp0 fs0 { texC2 with trimmed := false } img2x2 ∧
    extractSprite texC2 img2x2 =
      extractSprite { texC2 with trimmed := false } img2x2 :=
  c10_trimmed_no_influence unp0 fs0 img2x2 texC2 { texC2 with trimmed := false }
    rfl rfl rfl rfl rfl

/-- A successful `unpackTexture` always returns exactly the extracted sprite. -/
theorem unpackTexture_ok (u : Unpacker) (fs : FS) (t : Texture) (img : Image)
    (s : Image) (h : unpackTexture u fs t img = .ok s) :
    s = extractSprite t img := by
  unfold unpackTexture at h
  split_ifs at h <;> simp_all

/-- Every pair produced by the single-worker loop is an attempted texture of
the job list together with its `unpackTexture` outcome. -/
theorem runWorker1_mem (u : Unpacker) (fs : FS) (img : Image) :
    ∀ (ts : List Texture) (p : Texture × Except String Image),
      p ∈ runWorker1 u fs img ts →
        p.1 ∈ ts ∧ p.2 = unpackTexture u fs p.1 img := by
  intro ts
  induction ts with
  | nil => intro p hp; simp [runWorker1] at hp
  | cons t rest ih =>
    intro p hp
    unfold runWorker1 at hp
    cases hu : unpackTexture u fs t img with
    | error e =>
      rw [hu] at hp
      simp only [List.mem_singleton] at hp
      subst hp
      exact ⟨List.mem_cons_self t rest, by simp [hu]⟩
    | ok s =>
      rw [hu] at hp
      rcases List.mem_cons.mp hp with hp | hp
      · subst hp
        exact ⟨List.mem_cons_self t rest, by simp [hu]⟩
      · rcases ih p hp with ⟨h1, h2⟩
        exact ⟨List.mem_cons_of_mem t h1, h2⟩

/-- C4 counterexample fixture: a texture whose `frame` lies entirely outside
the 2x2 source image. -/
def texC4 : Texture :=
  { fileName := "c4", frame := ⟨2, 2, 10, 10⟩, rotated := false,
    sourceSize := ⟨2, 2⟩, spriteSourceSize := ⟨2, 2, 0, 0⟩, trimmed := false }

/-- C4: as stated the claim fails. `texC4`'s frame is disjoint from the source
bounds, yet with working filesystem operations `unpackTexture` succeeds (the
copy is silently clipped to nothing) instead of returning an error. -/
theorem c4_counterexample :
    texC4.frame.Rect.Intersect img2x2.rect = Rectangle.ZR ∧
    unpackTexture unp0 fs0 texC4 img2x2 = .ok (extractSprite texC4 img2x2) ∧
    (extractSprite texC4 img2x2).At 0 0 = Color.zero := by
  refine ⟨by decide, rfl, by decide⟩

/-- C4 amended: `unpackTexture` returns an error exactly when one of its
filesystem operations fails (directory creation for names with a path
separator, file creation, PNG encoding, file close); the texture's geometry
and the source image play no part in whether it fails. -/
theorem c4_error_iff_fs_failure (u : Unpacker) (fs : FS) (t : Texture)
    (img : Image) :
    (∃ e, unpackTexture u fs t img = .error e) ↔
      ((t.fileName.data.contains '/' && !fs.mkdirOk t.fileName)
        || !fs.createOk t.fileName || !fs.encodeOk t.fileName
        || !fs.closeOk t.fileName) = true := by
  unfold unpackTexture
  split_ifs with h1 h2 h3 h4 <;> simp_all

/-- C5 fixture: a 1x1 texture whose output file cannot be created. -/
def texU1 : Texture :=
  { fileName := "u1", frame := ⟨1, 1, 0, 0⟩, rotated := false,
    sourceSize := ⟨1, 1⟩, spriteSourceSize := ⟨1, 1, 0, 0⟩, trimmed := false }

/-- C5 fixture: an identical sibling texture with its own output file. -/
def texU2 : Texture := { texU1 with fileName := "u2" }

/-- C5 fixture: every filesystem operation succeeds except creating `u1`'s
output file. -/
def fsFailU1 : FS :=
  { allOkFS (fun _ => img2x2) with
    createOk := fun n => if n = "u1" then false else true }

/-- C5 fixture: a sheet whose first texture fails and whose second is fine. -/
def sheetC5 : Sheet := ⟨"", [texU1, texU2], "sheet.webp", ⟨2, 2⟩⟩

/-- C5: the failing input evaluated. With one worker, after `u1`'s output file
fails to create, the worker goroutine returns; the sibling texture `u2` of
the same sheet is never attempted, contradicting the claim that every other
texture is still attempted regardless of failures. -/
theorem c5_sibling_never_attempted :
    (unpackSheet1 unp0 fsFailU1 sheetC5).result = .error "failed to open output file" ∧
    (unpackSheet1 unp0 fsFailU1 sheetC5).attempted = [texU1] ∧
    texU2 ∉ (unpackSheet1 unp0 fsFailU1 sheetC5).attempted ∧
    texU2 ∈ sheetC5.textures := by
  refine ⟨rfl, by decide, by decide, by decide⟩

/-- C7 fixture: an environment in which no sheet file can be opened. -/
def fsNoOpen : FS := { allOkFS (fun _ => img2x2) with openOk := fun _ => false }

/-- C7 fixture: a sheet whose image file is missing. -/
def sheetC7 : Sheet := ⟨"", [texU1], "missing.webp", ⟨2, 2⟩⟩

/-- C7: if opening or decoding the sheet's source image fails, `unpackSheet`
returns that error at once — no texture of the sheet is attempted and no
file is written; and every file a sheet run writes is the extraction of one
of its textures against the one decoded image of the sheet's file, shared by
all jobs. -/
theorem c7_decode_once_and_fatal (u : Unpacker) (fs : FS) (sheet : Sheet) :
    ((fs.openOk sheet.image = false ∨ fs.decodeOk sheet.image = false) →
      (∃ e, (unpackSheet1 u fs sheet).result = .error e) ∧
      (unpackSheet1 u fs sheet).attempted = [] ∧
      (unpackSheet1 u fs sheet).written = []) ∧
    (∀ p ∈ (unpackSheet1 u fs sheet).written,
      ∃ t ∈ sheet.textures,
        p = (t.fileName, extractSprite t (fs.imageOf sheet.image))) := by
  constructor
  · intro h
    unfold unpackSheet1
    rcases h with h | h
    · simp [h]
    · by_cases ho : fs.openOk sheet.image = true
      · simp [ho, h]
      · simp [Bool.not_eq_true] at ho
        simp [ho]
  · intro p hp
    unfold unpackSheet1 at hp
    split_ifs at hp with h1 h2
    · simp at hp
    · simp at hp
    · simp only at hp
      rcases List.mem_filterMap.mp hp with ⟨q, hq, hmk⟩
      rcases runWorker1_mem u fs (fs.imageOf sheet.image) sheet.textures q hq with ⟨hmem, heq⟩
      cases hq2 : q.2 with
      | error e => rw [hq2] at hmk; simp at hmk
      | ok s =>
        rw [hq2] at hmk
        simp only [Option.some.injEq] at hmk
        have hs : s = extractSprite q.1 (fs.imageOf sheet.image) :=
          unpackTexture_ok u fs q.1 (fs.imageOf sheet.image) s (by rw [← heq, hq2])
        exact ⟨q.1, hmem, by rw [← hmk, hs]⟩

/-- C7 witness: the sheet with the missing image file returns an error with
nothing attempted and nothing written. -/
theorem c7_witness :
    (∃ e, (unpackSheet1 unp0 fsNoOpen sheetC7).result = .error e) ∧
    (unpackSheet1 unp0 fsNoOpen sheetC7).attempted = [] ∧
    (unpackSheet1 unp0 fsNoOpen sheetC7).written = [] :=
  (c7_decode_once_and_fatal unp0 fsNoOpen sheetC7).1 (Or.inl rfl)

/-- C6: with the output root created, `unpack` returns nil exactly when every
sheet pipeline returned nil; any returned error is the result of one of the
sheet pipelines (the first to reach the mutex, by construction of the
completion order); and every file any sheet pipeline writes belongs to the
run's total output — sheets are never cancelled or skipped by another
sheet's error. -/
theorem c6_first_error_aggregation (u : Unpacker) (fs : FS) (order : List Nat)
    (hroot : fs.rootMkdirOk = true)
    (hperm : order.Perm (List.range u.pack.sheets.length)) :
    (unpackModel u fs order = .ok () ↔
      ∀ sh ∈ u.pack.sheets, (unpackSheet1 u fs sh).result = .ok ()) ∧
    (∀ e, unpackModel u fs order = .error e →
      ∃ sh ∈ u.pack.sheets, (unpackSheet1 u fs sh).result = .error e) ∧
    (∀ sh ∈ u.pack.sheets, ∀ w ∈ (unpackSheet1 u fs sh).written,
      w ∈ unpackWritten u fs) := by
  have hsome : ∀ (i : Nat) (e : String),
      (match (u.pack.sheets.map fun sh => (unpackSheet1 u fs sh).result).get? i with
        | some (.error e') => some e'
        | _ => none) = some e →
      ∃ sh ∈ u.pack.sheets, (unpackSheet1 u fs sh).result = .error e := by
    intro i e h
    cases hg : (u.pack.sheets.map fun sh => (unpackSheet1 u fs sh).result).get? i with
    | none => rw [hg] at h; simp at h
    | some r =>
      rw [hg] at h
      cases r with
      | ok v => simp at h
      | error e' =>
        simp only [Option.some.injEq] at h
        subst h
        rw [List.get?_map] at hg
        rcases Option.map_eq_some'.mp hg with ⟨sh, hsh, hgs⟩
        exact ⟨sh, List.get?_mem hsh, hgs⟩
  have hnone : ∀ (i : Nat),
      (∀ sh ∈ u.pack.sheets, (unpackSheet1 u fs sh).result = .ok ()) →
      (match (u.pack.sheets.map fun sh => (unpackSheet1 u fs sh).result).get? i with
        | some (.error e') => some e'
        | _ => none) = none := by
    intro i hok
    rw [List.get?_map]
    cases hg : u.pack.sheets.get? i with
    | none => rfl
    | some sh =>
      have hres := hok sh (List.get?_mem hg)
      simp [hres]
  have hmodel : unpackModel u fs order =
      match order.filterMap (fun i =>
        match (u.pack.sheets.map fun sh => (unpackSheet1 u fs sh).result).get? i with
        | some (.error e) => some e
        | _ => none) with
      | [] => Except.ok ()
      | e :: _ => Except.error e := by
    unfold unpackModel
    rw [hroot]
    rfl
  refine ⟨?_, ?_, ?_⟩
  · rw [hmodel]
    rcases hfm : order.filterMap (fun i =>
        match (u.pack.sheets.map fun sh => (unpackSheet1 u fs sh).result).get? i with
        | some (.error e) => some e
        | _ => none) with _ | ⟨e, rest⟩
    · constructor
      · intro _ sh hsh
        cases hres : (unpackSheet1 u fs sh).result with
        | ok v => cases v; rfl
        | error e =>
          exfalso
          rcases List.mem_iff_get?.mp hsh with ⟨i, hget⟩
          have hlt : i < u.pack.sheets.length := by
            rcases List.get?_eq_some.mp hget with ⟨h, _⟩
            exact h
          have hio : i ∈ order := hperm.mem_iff.mpr (List.mem_range.mpr hlt)
          have hF := List.filterMap_eq_nil.mp hfm i hio
          rw [List.get?_map, hget] at hF
          simp only [Option.map_some'] at hF
          rw [hres] at hF
          simp at hF
      · intro _; rfl
    · constructor
      · intro h; exact absurd h (by simp)
      · intro hall
        exfalso
        have hmem : e ∈ order.filterMap (fun i =>
            match (u.pack.sheets.map fun sh => (unpackSheet1 u fs sh).result).get? i with
            | some (.error e) => some e
            | _ => none) := by
          rw [hfm]; exact List.mem_cons_self e rest
        rcases List.mem_filterMap.mp hmem with ⟨i, _, hFi⟩
        rcases hsome i e hFi with ⟨sh, hsh, hres⟩
        rw [hall sh hsh] at hres
        simp at hres
  · intro e
    rw [hmodel]
    rcases hfm : order.filterMap (fun i =>
        match (u.pack.sheets.map fun sh => (unpackSheet1 u fs sh).result).get? i with
        | some (.error e) => some e
        | _ => none) with _ | ⟨e', rest⟩
    · intro h; exact absurd h (by simp)
    · intro h
      simp only [Except.error.injEq] at h
      subst h
      have hmem : e' ∈ order.filterMap (fun i =>
          match (u.pack.sheets.map fun sh => (unpackSheet1 u fs sh).result).get? i with
          | some (.error e) => some e
          | _ => none) := by
        rw [hfm]; exact List.mem_cons_self e' rest
      rcases List.mem_filterMap.mp hmem with ⟨i, _, hFi⟩
      exact hsome i e' hFi
  · intro sh hsh w hw
    exact List.mem_flatMap.mpr ⟨sh, hsh, hw⟩

/-- C6 witness fixture: a pack with a single sheet. -/
def unpC6 : Unpacker := ⟨⟨[], [sheetC5]⟩, "pack", "in", "out", 1⟩

/-- C6 witness: the single-sheet pack, whose sheet succeeds under `fs0`,
makes `unpack` return nil, in agreement with every pipeline being nil. -/
theorem c6_witness :
    unpackModel unpC6 fs0 [0] = .ok () ↔
      ∀ sh ∈ unpC6.pack.sheets, (unpackSheet1 unpC6 fs0 sh).result = .ok () :=
  (c6_first_error_aggregation unpC6 fs0 [0] rfl (by decide)).1

/-- With pairwise distinct file names, at most one texture of the list writes
to any given output name. -/
theorem filter_name_length_le_one (ts : List Texture) (name : String)
    (h : (ts.map Texture.fileName).Nodup) :
    (ts.filter fun t => decide (t.fileName = name)).length ≤ 1 := by
  induction ts with
  | nil => simp
  | cons t rest ih =>
    simp only [List.map_cons, List.nodup_cons] at h
    rcases h with ⟨hnot, hnd⟩
    by_cases hn : t.fileName = name
    · have hrest : (rest.filter fun t' => decide (t'.fileName = name)) = [] := by
        rw [List.filter_eq_nil_iff]
        intro a ha
        simp only [decide_eq_true_eq]
        intro hcontra
        exact hnot (by
          rw [hn, ← hcontra] at *
          exact hcontra ▸ List.mem_map_of_mem Texture.fileName ha)
      simp [List.filter_cons, hn, hrest]
    · simp [List.filter_cons, hn]
      exact ih hnd

/-- C8 amended: when the textures of a job list have pairwise distinct file
names, the final pixel content of every output file is the same for any
completion order of the extractions — in particular for the orders realised
by one worker and by any number of workers. -/
theorem c8_final_content_order_independent (ts ord : List Texture) (img : Image)
    (name : String) (hperm : ord.Perm ts)
    (hnodup : (ts.map Texture.fileName).Nodup) :
    finalFiles (writesOf ord img) name = finalFiles (writesOf ts img) name := by
  have hmap : (writesOf ord img).Perm (writesOf ts img) := hperm.map _
  have hpf : ((writesOf ord img).filter fun w => decide (w.1 = name)).Perm
      ((writesOf ts img).filter fun w => decide (w.1 = name)) := hmap.filter _
  have hlen : ((writesOf ts img).filter fun w => decide (w.1 = name)).length ≤ 1 := by
    unfold writesOf
    rw [List.filter_map, List.length_map]
    exact filter_name_length_le_one ts name hnodup
  rcases hfl : (writesOf ts img).filter (fun w => decide (w.1 = name)) with _ | ⟨w, rest⟩
  · rw [hfl] at hpf
    have hord : (writesOf ord img).filter (fun w => decide (w.1 = name)) = [] :=
      List.Perm.eq_nil hpf
    unfold finalFiles
    rw [hord, hfl]
  · rw [hfl] at hpf hlen
    have hrest : rest = [] := by
      simp only [List.length_cons] at hlen
      exact List.length_eq_zero.mp (by omega)
    subst hrest
    have hord : (writesOf ord img).filter (fun w => decide (w.1 = name)) = [w] :=
      List.perm_singleton.mp hpf
    unfold finalFiles
    rw [hord, hfl]

/-- C8 counterexample fixture: a texture writing `dup` from the red source
pixel. -/
def texDupA : Texture :=
  { fileName := "dup", frame := ⟨1, 1, 0, 0⟩, rotated := false,
    sourceSize := ⟨1, 1⟩, spriteSourceSize := ⟨1, 1, 0, 0⟩, trimmed := false }

/-- C8 counterexample fixture: a texture writing the same file `dup` from
the green source pixel. -/
def texDupB : Texture := { texDupA with frame := ⟨1, 1, 1, 0⟩ }

/-- C8 counterexample fixture: a sheet carrying both `dup` textures. -/
def sheetC8 : Sheet := ⟨"", [texDupA, texDupB], "sheet.webp", ⟨2, 2⟩⟩

/-- C8: as stated the claim fails. Both write orders are realisable — the
manifest order is exactly the single-worker write order, and with two
workers each texture can go to its own worker, so their single writes can
land in either interleaving — yet the two orders leave different pixel
content in the output file `dup`. -/
theorem c8_counterexample :
    (unpackSheet1 unp0 fs0 sheetC8).written = writesOf [texDupA, texDupB] img2x2 ∧
    Merge2 [texDupA] [texDupB] [texDupA, texDupB] ∧
    Merge2 [texDupA] [texDupB] [texDupB, texDupA] ∧
    Option.map (fun im => im.At 0 0) (finalFiles (writesOf [texDupA, texDupB] img2x2) "dup") =
      some ⟨0, 255, 0, 255⟩ ∧
    Option.map (fun im => im.At 0 0) (finalFiles (writesOf [texDupB, texDupA] img2x2) "dup") =
      some ⟨255, 0, 0, 255⟩ ∧
    Option.map (fun im => im.At 0 0) (finalFiles (writesOf [texDupA, texDupB] img2x2) "dup") ≠
      Option.map (fun im => im.At 0 0) (finalFiles (writesOf [texDupB, texDupA] img2x2) "dup") := by
  refine ⟨rfl, .left (.right .nil), .right (.left .nil), by decide, by decide, by decide⟩

/-- C8 witness: with the two distinct-name textures `u1`, `u2`, the reversed
completion order leaves the same final content as the manifest order. -/
theorem c8_witness :
    finalFiles (writesOf [texU2, texU1] img2x2) "u1" =
      finalFiles (writesOf [texU1, texU2] img2x2) "u1" :=
  c8_final_content_order_independent [texU1, texU2] [texU2, texU1] img2x2 "u1"
    (by decide) (by decide)

end PhaserUnpacker
